import Mathlib

/-!
Shallow embedding of the vote-tally and role-eligibility engine of the
governance dashboard (sources: `src/services/api.ts`,
`src/pages/governance/[hash].tsx`, plus the spec for the one library module
not shipped in the sources).  JavaScript numbers are modelled as rationals
(`ℚ`), JS `undefined`/`null` as `Option`, and JS strings as `String`.
-/

namespace CGov

/-! ### JavaScript numeric primitives

The code calls the JS builtins `Number(...)` and `parseInt(..., 10)`.
We model `Number` on the integer-string fragment the backend sends
(optional sign followed by decimal digits); every other non-empty string
is mapped to `none`, standing for a non-finite (`NaN`) result.
-/

def digitsToNat (ds : List Char) : Nat :=
  ds.foldl (fun acc c => acc * 10 + (c.toNat - 48)) 0

/-- `s` is a decimal integer literal: an optional sign followed by one or
more digits. -/
def isIntegerString (s : String) : Bool :=
  match s.data with
  | [] => false
  | '-' :: rest => !rest.isEmpty && rest.all Char.isDigit
  | '+' :: rest => !rest.isEmpty && rest.all Char.isDigit
  | cs => cs.all Char.isDigit

/-- The integer denoted by a decimal integer literal. -/
def integerStringValue (s : String) : Int :=
  match s.data with
  | '-' :: rest => -(digitsToNat rest : Int)
  | '+' :: rest => (digitsToNat rest : Int)
  | cs => (digitsToNat cs : Int)

/-- Model of the JS builtin `Number(s)` for strings, restricted to the
fragment exercised by the code: `""` evaluates to `0`, integer literals to
their value, and any other string to `none` (a non-finite result). -/
def jsNumber (s : String) : Option ℚ :=
  if s = "" then some 0
  else if isIntegerString s then some ((integerStringValue s : ℚ)) else none

/-- Model of the JS builtin `parseInt(s, 10)` on character lists: skip
leading whitespace, read an optional sign, then the longest run of
digits; `none` (JS `NaN`) when no digit is found. -/
def jsParseInt (cs : List Char) : Option Int :=
  let trimmed := cs.dropWhile Char.isWhitespace
  let digitsOf : List Char → Option Nat := fun rest =>
    let ds := rest.takeWhile Char.isDigit
    if ds.isEmpty then none else some (digitsToNat ds)
  match trimmed with
  | '-' :: rest => (digitsOf rest).map (fun n => -(n : Int))
  | '+' :: rest => (digitsOf rest).map (fun n => (n : Int))
  | rest => (digitsOf rest).map (fun n => (n : Int))

/-! ### Unit conversion (`src/services/api.ts`, `lovelaceToAdaNumber`) -/

/-- `lovelaceToAdaNumber` from `src/services/api.ts`:
`if (!lovelace) return 0;` then `Number(lovelace) / 1_000_000`, with a
final `Number.isFinite` guard returning `0` for non-finite results
(`none` from `jsNumber`).  In JS the falsy guard also catches `""`. -/
def lovelaceToAdaNumber (lovelace : Option String) : ℚ :=
  match lovelace with
  | none => 0
  | some s =>
    if s = "" then 0
    else
      match jsNumber s with
      | none => 0
      | some v => v / 1000000

/-! ### Abstain-value derivation

`deriveAbstainValue` lives in `src/lib/voteMath.ts`, which is not among
the shipped sources (only its import sites are).  Modelled from the spec.
-/

/-- Modelled from the spec: `deriveAbstainValue` of the missing module
`src/lib/voteMath.ts`.  Missing operands are treated as `0`; when
`yesPercent + noPercent = 0` the result is `0` (no basis to infer a
total); otherwise the implied total `(yesValue + noValue) /
(yesPercent + noPercent) * 100` is scaled by the abstain percentage
(the explicit one when present, else the complement of yes+no), and the
result is floored at `0` (never negative). -/
def deriveAbstainValue (yesValue yesPercent noValue noPercent
    abstainPercentOpt : Option ℚ) : ℚ :=
  let yv := yesValue.getD 0
  let yp := yesPercent.getD 0
  let nv := noValue.getD 0
  let np := noPercent.getD 0
  if yp + np = 0 then 0
  else
    let ap := abstainPercentOpt.getD (100 - yp - np)
    max 0 ((yv + nv) / (yp + np) * 100 * ap / 100)

/-! ### JavaScript string primitives

Models of the JS builtins used by the code (`includes`, `toLowerCase`,
`trim`, `split`), written over character lists so that they evaluate in
the kernel.
-/

/-- `needle` occurs as a contiguous run inside `hay` (JS
`hay.includes(needle)`). -/
def listContainsSub (needle : List Char) : List Char → Bool
  | [] => needle.isEmpty
  | c :: rest => needle.isPrefixOf (c :: rest) || listContainsSub needle rest

/-- JS `hay.includes(needle)` on strings. -/
def jsIncludes (hay needle : String) : Bool :=
  listContainsSub needle.data hay.data

/-- JS `s.toLowerCase()` (ASCII fragment). -/
def jsToLowerCase (s : String) : String :=
  ⟨s.data.map Char.toLower⟩

/-- JS `s.trim()`: strip leading and trailing whitespace. -/
def jsTrim (s : String) : String :=
  ⟨((s.data.dropWhile Char.isWhitespace).reverse.dropWhile
      Char.isWhitespace).reverse⟩

/-- JS `s.split(sep)` for a single-character separator, on character
lists: `splitOnChar sep cs` is the list of (possibly empty) chunks of
`cs` delimited by `sep`. -/
def splitOnChar (sep : Char) : List Char → List (List Char)
  | [] => [[]]
  | c :: cs =>
    let rest := splitOnChar sep cs
    if c = sep then [] :: rest
    else
      match rest with
      | [] => [[c]]
      | h :: t => (c :: h) :: t

/-! ### Proposal hash parsing (`src/pages/governance/[hash].tsx`,
`parseProposalHash`; an identical copy sits next to the governance
table) -/

/-- One branch of `parseProposalHash`: given that `hash` contains `sep`,
split on it, read the first chunk as `txHash` and parse the second as
`certIndex`; `none` when the index is not parseable or `txHash` is
empty. -/
def tryHashFormat (sep : Char) (hash : String) : Option (String × Int) :=
  if hash.data.contains sep then
    let parts := splitOnChar sep hash.data
    let txHash := parts.getD 0 []
    let certIndexStr := parts.getD 1 []
    match jsParseInt certIndexStr with
    | some certIndex => if txHash ≠ [] then some (⟨txHash⟩, certIndex) else none
    | none => none
  else none

/-- `parseProposalHash` from `src/pages/governance/[hash].tsx`: empty
hash gives `null`; otherwise the `txHash:certIndex` format is tried
first and the `txHash#certIndex` format second. -/
def parseProposalHash (hash : String) : Option (String × Int) :=
  if hash = "" then none
  else
    match tryHashFormat ':' hash with
    | some r => some r
    | none => tryHashFormat '#' hash

/-! ### Legacy actions and role applicability
(`src/pages/governance/[hash].tsx`) -/

def LEGACY_NON_APPLICABLE_DREP_ACTIONS : List String :=
  ["gov_action1k2jertppnnndejjcglszfqq4yzw8evzrd2nt66rr6rqlz54xp0zsq05ecsn",
   "gov_action1286ft23r7jem825s4l0y5rn8sgam0tz2ce04l7a38qmnhp3l9a6qqn850dw",
   "gov_action1pvv5wmjqhwa4u85vu9f4ydmzu2mgt8n7et967ph2urhx53r70xusqnmm525"]

def LEGACY_NON_APPLICABLE_SPO_ACTIONS : List String :=
  ["gov_action1k2jertppnnndejjcglszfqq4yzw8evzrd2nt66rr6rqlz54xp0zsq05ecsn",
   "gov_action1286ft23r7jem825s4l0y5rn8sgam0tz2ce04l7a38qmnhp3l9a6qqn850dw"]

def LEGACY_NON_APPLICABLE_CC_ACTIONS : List String := []

/-- Governance action types where CC does not vote. -/
def CC_NOT_APPLICABLE_TYPES : List String :=
  ["No Confidence", "Update Committee"]

/-- Governance action types where SPO does not vote. -/
def SPO_NOT_APPLICABLE_TYPES : List String :=
  ["New Constitution", "Protocol Parameter Change", "Treasury Withdrawals"]

/-- `isLegacyAction`: the hash equals or contains one of the legacy
action identifiers. -/
def isLegacyAction (hash : String) : Bool :=
  (LEGACY_NON_APPLICABLE_DREP_ACTIONS ++ LEGACY_NON_APPLICABLE_SPO_ACTIONS ++
      LEGACY_NON_APPLICABLE_CC_ACTIONS).any
    (fun actionId => hash == actionId || jsIncludes hash actionId)

/-! ### Data model (`src/types/governance` as used by the sources) -/

/-- A raw per-role tally as delivered by the backend: every field may be
absent. -/
structure RawTally where
  yesPercent : Option ℚ := none
  noPercent : Option ℚ := none
  abstainPercent : Option ℚ := none
  yesLovelace : Option String := none
  noLovelace : Option String := none
  abstainLovelace : Option String := none
  yesCount : Option Int := none
  noCount : Option Int := none
  abstainCount : Option Int := none
  deriving Repr, DecidableEq

/-- A per-role tally re-emitted by the normalizer, augmented with the
three derived ADA values. -/
structure OutTally where
  yesPercent : Option ℚ := none
  noPercent : Option ℚ := none
  abstainPercent : Option ℚ := none
  yesLovelace : Option String := none
  noLovelace : Option String := none
  abstainLovelace : Option String := none
  yesCount : Option Int := none
  noCount : Option Int := none
  abstainCount : Option Int := none
  yesAda : ℚ := 0
  noAda : ℚ := 0
  abstainAda : ℚ := 0
  deriving Repr, DecidableEq

/-- A raw governance action as delivered by the backend (`GovernanceAction`
before `transformGovernanceAction`): numeric and nested fields may be
absent; a missing `title`/`constitutionality` is modelled as `""` (JS
treats both `undefined` and `""` as falsy in the defaulting). -/
structure RawGovernanceAction where
  hash : String := ""
  proposalId : Option String := none
  txHash : String := ""
  title : String := ""
  type : String := ""
  status : String := ""
  constitutionality : String := ""
  drep : Option RawTally := none
  spo : Option RawTally := none
  cc : Option RawTally := none
  totalYes : Option Int := none
  totalNo : Option Int := none
  totalAbstain : Option Int := none
  submissionEpoch : Option Int := none
  expiryEpoch : Option Int := none
  threshold : Option ℚ := none
  votingStatus : Option String := none
  deriving Repr, DecidableEq

/-- A normalized governance action (output of
`transformGovernanceAction`).  The DRep percentages, vote totals and
epochs are always present; the SPO and CC flat fields keep their
optionality. -/
structure GovernanceAction where
  hash : String := ""
  proposalId : Option String := none
  txHash : String := ""
  title : String := ""
  type : String := ""
  status : String := ""
  constitutionality : String := ""
  drepYesPercent : ℚ := 0
  drepNoPercent : ℚ := 0
  drepAbstainPercent : ℚ := 0
  drepYesAda : ℚ := 0
  drepNoAda : ℚ := 0
  drepAbstainAda : ℚ := 0
  spoYesPercent : Option ℚ := none
  spoNoPercent : Option ℚ := none
  spoAbstainPercent : Option ℚ := none
  spoYesAda : Option ℚ := none
  spoNoAda : Option ℚ := none
  spoAbstainAda : Option ℚ := none
  ccYesPercent : Option ℚ := none
  ccNoPercent : Option ℚ := none
  ccAbstainPercent : Option ℚ := none
  ccYesCount : Option Int := none
  ccNoCount : Option Int := none
  ccAbstainCount : Option Int := none
  totalYes : Int := 0
  totalNo : Int := 0
  totalAbstain : Int := 0
  submissionEpoch : Int := 0
  expiryEpoch : Int := 0
  threshold : Option ℚ := none
  votingStatus : Option String := none
  drep : Option OutTally := none
  spo : Option OutTally := none
  cc : Option RawTally := none
  deriving Repr, DecidableEq

/-- A display vote record.  `votedAt` is the parsed timestamp (epoch
milliseconds of the JS `Date`), `none` when the field is absent. -/
structure VoteRecord where
  voterType : String := ""
  voterId : String := ""
  voterName : Option String := none
  drepId : Option String := none
  drepName : Option String := none
  vote : String := ""
  votingPower : Option String := none
  votingPowerAda : Option ℚ := none
  anchorUrl : Option String := none
  anchorHash : Option String := none
  votedAt : Option Int := none
  deriving Repr, DecidableEq

/-- A governance action detail: the action plus its vote collections. -/
structure GovernanceActionDetail extends GovernanceAction where
  description : Option String := none
  rationale : Option String := none
  votes : List VoteRecord := []
  ccVotes : List VoteRecord := []
  deriving Repr, DecidableEq

/-! ### Action record normalizer (`src/services/api.ts`,
`transformGovernanceAction`) -/

/-- `transformGovernanceAction`: fill defaults for title,
constitutionality, the DRep percentages, the vote totals and the epochs;
convert the per-role lovelace amounts to ADA; pass the SPO and CC flat
fields through unchanged; re-emit the raw tallies augmented with the
ADA values (`cc` is passed through as-is). -/
def transformGovernanceAction (action : RawGovernanceAction) :
    GovernanceAction :=
  let drepYesAda := lovelaceToAdaNumber (action.drep.bind (·.yesLovelace))
  let drepNoAda := lovelaceToAdaNumber (action.drep.bind (·.noLovelace))
  let drepAbstainAda :=
    lovelaceToAdaNumber (action.drep.bind (·.abstainLovelace))
  let spoYesAda := action.spo.map (fun s => lovelaceToAdaNumber s.yesLovelace)
  let spoNoAda := action.spo.map (fun s => lovelaceToAdaNumber s.noLovelace)
  let spoAbstainAda :=
    action.spo.map (fun s => lovelaceToAdaNumber s.abstainLovelace)
  { hash := action.hash
    proposalId := action.proposalId
    txHash := action.txHash
    title := if action.title = "" then "Untitled Proposal" else action.title
    type := action.type
    status := action.status
    constitutionality :=
      if action.constitutionality = "" then "Unspecified"
      else action.constitutionality
    drepYesPercent := (action.drep.bind (·.yesPercent)).getD 0
    drepNoPercent := (action.drep.bind (·.noPercent)).getD 0
    drepAbstainPercent := (action.drep.bind (·.abstainPercent)).getD 0
    drepYesAda := drepYesAda
    drepNoAda := drepNoAda
    drepAbstainAda := drepAbstainAda
    spoYesPercent := action.spo.bind (·.yesPercent)
    spoNoPercent := action.spo.bind (·.noPercent)
    spoAbstainPercent := action.spo.bind (·.abstainPercent)
    spoYesAda := spoYesAda
    spoNoAda := spoNoAda
    spoAbstainAda := spoAbstainAda
    ccYesPercent := action.cc.bind (·.yesPercent)
    ccNoPercent := action.cc.bind (·.noPercent)
    ccAbstainPercent := action.cc.bind (·.abstainPercent)
    ccYesCount := action.cc.bind (·.yesCount)
    ccNoCount := action.cc.bind (·.noCount)
    ccAbstainCount := action.cc.bind (·.abstainCount)
    totalYes := action.totalYes.getD 0
    totalNo := action.totalNo.getD 0
    totalAbstain := action.totalAbstain.getD 0
    submissionEpoch := action.submissionEpoch.getD 0
    expiryEpoch := action.expiryEpoch.getD 0
    threshold := action.threshold
    votingStatus := action.votingStatus
    drep := action.drep.map (fun d =>
      { yesPercent := d.yesPercent, noPercent := d.noPercent
        abstainPercent := d.abstainPercent, yesLovelace := d.yesLovelace
        noLovelace := d.noLovelace, abstainLovelace := d.abstainLovelace
        yesCount := d.yesCount, noCount := d.noCount
        abstainCount := d.abstainCount
        yesAda := drepYesAda, noAda := drepNoAda
        abstainAda := drepAbstainAda })
    spo := action.spo.map (fun s =>
      { yesPercent := s.yesPercent, noPercent := s.noPercent
        abstainPercent := s.abstainPercent, yesLovelace := s.yesLovelace
        noLovelace := s.noLovelace, abstainLovelace := s.abstainLovelace
        yesCount := s.yesCount, noCount := s.noCount
        abstainCount := s.abstainCount
        yesAda := (spoYesAda.getD 0), noAda := (spoNoAda.getD 0)
        abstainAda := (spoAbstainAda.getD 0) })
    cc := action.cc }

/-! ### Role not-applicable resolvers
(`src/pages/governance/[hash].tsx`) -/

/-- `isCcNotApplicable`. -/
def isCcNotApplicable (action : GovernanceActionDetail) : Bool :=
  if LEGACY_NON_APPLICABLE_CC_ACTIONS.any
      (fun actionId => action.hash == actionId ||
        jsIncludes action.hash actionId) then
    true
  else if !isLegacyAction action.hash then
    CC_NOT_APPLICABLE_TYPES.contains action.type
  else false

/-- `isDrepNotApplicable`. -/
def isDrepNotApplicable (action : GovernanceActionDetail) : Bool :=
  if LEGACY_NON_APPLICABLE_DREP_ACTIONS.any
      (fun actionId => action.hash == actionId ||
        jsIncludes action.hash actionId) then
    true
  else false

/-- `isSpoNotApplicable`. -/
def isSpoNotApplicable (action : GovernanceActionDetail) : Bool :=
  if LEGACY_NON_APPLICABLE_SPO_ACTIONS.any
      (fun actionId => action.hash == actionId ||
        jsIncludes action.hash actionId) then
    true
  else if !isLegacyAction action.hash then
    SPO_NOT_APPLICABLE_TYPES.contains action.type
  else false

/-! ### Filter/sort/priority engine (`GovernanceTable`)

The engine reads only the title, type, status and the two epoch fields
of each action; `TableAction` is that projection.  JS
`Array.prototype.sort` is stable and sorts by a comparator; a stable
comparator sort is modelled by `List.insertionSort` with the relation
"comparator result is non-positive".
-/

/-- The fields of a governance action the table engine reads.  The
epochs stay optional because the comparator defends with `?? 0`. -/
structure TableAction where
  title : String := ""
  type : String := ""
  status : String := ""
  submissionEpoch : Option Int := none
  expiryEpoch : Option Int := none
  deriving Repr, DecidableEq

/-- The fixed showcase ordering of proposal types (`SHOWCASE_ORDER`). -/
def SHOWCASE_ORDER : List String :=
  ["NoConfidence", "UpdateCommittee", "NewConstitution",
   "HardForkInitiation", "ParameterChange", "Treasury", "InfoAction"]

/-- Modelled from the spec: `PROPOSAL_TYPES` of `src/types/governance`
(not among the shipped sources) — the fixed seven-member proposal type
enumeration; the engine only uses its length and membership. -/
def PROPOSAL_TYPES : List String :=
  ["NoConfidence", "UpdateCommittee", "NewConstitution",
   "HardForkInitiation", "ParameterChange", "Treasury", "InfoAction"]

/-- The status filter options (`STATUS_OPTIONS` of the governance
slice). -/
def STATUS_OPTIONS : List String :=
  ["Active", "Ratified", "Expired", "Approved", "Not approved"]

/-- The JS sort comparator of `sortedActions`: submission epoch
descending, ties broken by expiry epoch descending (missing epochs read
as `0`). -/
def actionCompare (a b : TableAction) : Int :=
  let epochA := a.submissionEpoch.getD 0
  let epochB := b.submissionEpoch.getD 0
  if epochA = epochB then b.expiryEpoch.getD 0 - a.expiryEpoch.getD 0
  else epochB - epochA

/-- "`a` may come before `b`": the comparator result is non-positive. -/
def actionLe (a b : TableAction) : Prop := actionCompare a b ≤ 0

instance : DecidableRel actionLe := fun a b =>
  inferInstanceAs (Decidable (actionCompare a b ≤ 0))

/-- `sortedActions`: the stable comparator sort of the action
collection. -/
def sortedActions (actions : List TableAction) : List TableAction :=
  List.insertionSort actionLe actions

/-- The `applySearch` closure of `filteredActions`: when the trimmed
query is nonempty, keep the actions whose lowercased title contains the
lowercased (untrimmed) query. -/
def applySearch (searchQuery : String) (list : List TableAction) :
    List TableAction :=
  if jsTrim searchQuery = "" then list
  else
    let q := jsToLowerCase searchQuery
    list.filter (fun action => jsIncludes (jsToLowerCase action.title) q)

/-- `filteredActions` of `GovernanceTable`: status filter, showcase
prioritization (one representative per selected showcase type, first
match in sort order), the all-types-selected branch appending the
non-showcase extras, the fallback plain type filter, and the search
filter applied last. -/
def filteredActions (actions : List TableAction)
    (selectedTypes selectedStatuses : List String)
    (searchQuery : String) : List TableAction :=
  let sorted := sortedActions actions
  if sorted.isEmpty then []
  else
    let statusFiltered :=
      sorted.filter (fun action => selectedStatuses.contains action.status)
    let prioritized :=
      (SHOWCASE_ORDER.filter (fun t => selectedTypes.contains t)).map
        (fun t => statusFiltered.find? (fun action => action.type = t))
    let dedupedPrioritized := prioritized.filterMap id
    if dedupedPrioritized.isEmpty then
      applySearch searchQuery (statusFiltered.filter (fun action =>
        if SHOWCASE_ORDER.contains action.type then
          selectedTypes.contains action.type
        else decide (selectedTypes.dedup.length = PROPOSAL_TYPES.length)))
    else if selectedTypes.dedup.length = PROPOSAL_TYPES.length then
      applySearch searchQuery
        (dedupedPrioritized ++
          statusFiltered.filter (fun action =>
            !SHOWCASE_ORDER.contains action.type))
    else applySearch searchQuery dedupedPrioritized

/-! ### Timeline aggregator (`voteTimelineData` of
`src/pages/governance/[hash].tsx`) -/

/-- A vote record tagged with its parsed date and original index, as
built at the start of `voteTimelineData`. -/
structure IndexedVote where
  voteRec : VoteRecord
  date : Option Int
  fallbackIndex : Nat
  deriving Repr, DecidableEq

/-- The JS timeline sort comparator as a relation ("may come before"):
two dated votes compare by timestamp, a dated vote comes before an
undated one, and two undated votes compare by original index. -/
def voteSortLe (a b : IndexedVote) : Prop :=
  match a.date, b.date with
  | some ta, some tb => ta ≤ tb
  | some _, none => True
  | none, some _ => False
  | none, none => a.fallbackIndex ≤ b.fallbackIndex

instance : DecidableRel voteSortLe := fun a b => by
  unfold voteSortLe
  rcases a.date with _ | ta <;> rcases b.date with _ | tb <;> infer_instance

/-- Attach parsed date and original index to each vote (the `map` at the
start of `voteTimelineData`). -/
def indexVotes (votes : List VoteRecord) : List IndexedVote :=
  votes.enum.map (fun p => ⟨p.2, p.2.votedAt, p.1⟩)

/-- The timeline sort: the stable comparator sort of the indexed
votes. -/
def timelineSortedVotes (votes : List VoteRecord) : List IndexedVote :=
  List.insertionSort voteSortLe (indexVotes votes)

/-- The six cumulative totals carried by a timeline point (the label is
presentation-only and not modelled). -/
structure TimelinePoint where
  yesCount : Nat := 0
  noCount : Nat := 0
  abstainCount : Nat := 0
  yesPower : ℚ := 0
  noPower : ℚ := 0
  abstainPower : ℚ := 0
  deriving Repr, DecidableEq

/-- The power contributed by one vote: `vote.votingPowerAda || 0`. -/
def votePower (v : VoteRecord) : ℚ := v.votingPowerAda.getD 0

/-- One step of the accumulation `switch`: `"Yes"` and `"No"` bump their
count and power, anything else counts as abstain. -/
def stepTotals (t : TimelinePoint) (v : VoteRecord) : TimelinePoint :=
  if v.vote = "Yes" then
    { t with yesCount := t.yesCount + 1, yesPower := t.yesPower + votePower v }
  else if v.vote = "No" then
    { t with noCount := t.noCount + 1, noPower := t.noPower + votePower v }
  else
    { t with abstainCount := t.abstainCount + 1,
             abstainPower := t.abstainPower + votePower v }

/-- The running-total walk of `voteTimelineData`: one output point per
vote, carrying the totals after that vote. -/
def runningTotals (t : TimelinePoint) : List VoteRecord → List TimelinePoint
  | [] => []
  | v :: vs =>
    let t' := stepTotals t v
    t' :: runningTotals t' vs

/-- The role filter applied at the start of `voteTimelineData` (`none`
is the "All" filter). -/
def roleFilteredVotes (roleFilter : Option String)
    (allVotes : List VoteRecord) : List VoteRecord :=
  match roleFilter with
  | none => allVotes
  | some role => allVotes.filter (fun vote => vote.voterType = role)

/-- `voteTimelineData`: role-filter, sort, then accumulate the six
running totals. -/
def voteTimelineData (roleFilter : Option String)
    (allVotes : List VoteRecord) : List TimelinePoint :=
  let votes := roleFilteredVotes roleFilter allVotes
  if votes.isEmpty then []
  else runningTotals {} ((timelineSortedVotes votes).map (·.voteRec))

/-! ## Theorems -/

/-- C8: `lovelaceToAdaNumber` returns `Number(s)/1_000_000` for every
valid integer string `s`, returns `0` for `undefined`, for the empty
string and for any value whose parse is non-finite, and is total (its
codomain is `ℚ`, so every result is a finite number). -/
theorem lovelaceToAdaNumber_spec :
    lovelaceToAdaNumber none = 0 ∧
    lovelaceToAdaNumber (some "") = 0 ∧
    (∀ s : String, isIntegerString s = true →
      lovelaceToAdaNumber (some s) = (integerStringValue s : ℚ) / 1000000) ∧
    (∀ s : String, jsNumber s = none → lovelaceToAdaNumber (some s) = 0) := by
  refine ⟨rfl, rfl, ?_, ?_⟩
  · intro s hs
    have hne : s ≠ "" := by
      intro h
      rw [h] at hs
      exact absurd hs (by decide)
    simp [lovelaceToAdaNumber, hne, jsNumber, hs]
  · intro s hs
    by_cases hne : s = ""
    · subst hne
      rfl
    · simp [lovelaceToAdaNumber, hne, hs]

/-- Witness for C8 at concrete inputs. -/
theorem lovelaceToAdaNumber_witness :
    lovelaceToAdaNumber (some "5000000") = 5 ∧
    lovelaceToAdaNumber (some "not-a-number") = 0 := by
  constructor
  · have h := lovelaceToAdaNumber_spec.2.2.1 "5000000" (by decide)
    rw [h, show integerStringValue "5000000" = 5000000 from by decide]
    norm_num
  · exact lovelaceToAdaNumber_spec.2.2.2 "not-a-number" (by decide)

/-- C9 (modelled from the spec): `deriveAbstainValue` is never
negative; it returns `0` when `yesPercent + noPercent` is `0` (missing
operands reading as `0`); and when the abstain percentage is provided,
the operands are non-negative and `yesPercent + noPercent > 0`, it
returns `(yesValue + noValue) / (yesPercent + noPercent) * 100 *
abstainPercent / 100`. -/
theorem deriveAbstainValue_spec :
    (∀ yv yp nv np ap : Option ℚ, 0 ≤ deriveAbstainValue yv yp nv np ap) ∧
    (∀ yv yp nv np ap : Option ℚ, yp.getD 0 + np.getD 0 = 0 →
      deriveAbstainValue yv yp nv np ap = 0) ∧
    (∀ (yv yp nv np : Option ℚ) (a : ℚ),
      0 ≤ yv.getD 0 + nv.getD 0 → 0 ≤ a → 0 < yp.getD 0 + np.getD 0 →
      deriveAbstainValue yv yp nv np (some a) =
        (yv.getD 0 + nv.getD 0) / (yp.getD 0 + np.getD 0) * 100 * a / 100) := by
  refine ⟨?_, ?_, ?_⟩
  · intro yv yp nv np ap
    simp only [deriveAbstainValue]
    split
    · exact le_refl 0
    · exact le_max_left 0 _
  · intro yv yp nv np ap h
    simp [deriveAbstainValue, h]
  · intro yv yp nv np a hval ha hden
    simp only [deriveAbstainValue, hden.ne', if_false, Option.getD_some]
    exact max_eq_right (by positivity)

/-- Witness for C9 at concrete inputs. -/
theorem deriveAbstainValue_witness :
    deriveAbstainValue (some 60) (some 30) (some 60) (some 30) (some 40) = 80 ∧
    deriveAbstainValue (some 5) none (some 7) none (some 40) = 0 := by
  constructor
  · have h := deriveAbstainValue_spec.2.2 (some 60) (some 30) (some 60)
      (some 30) 40 (by norm_num) (by norm_num) (by norm_num)
    rw [h]
    norm_num
  · exact deriveAbstainValue_spec.2.1 (some 5) none (some 7) none (some 40)
      (by norm_num)

/-- C4: any action whose hash equals or contains the first legacy
identifier has both DRep and SPO forced not-applicable, regardless of
its proposal type. -/
theorem legacy_hash_overrides (action : GovernanceActionDetail)
    (h : action.hash =
        "gov_action1k2jertppnnndejjcglszfqq4yzw8evzrd2nt66rr6rqlz54xp0zsq05ecsn" ∨
      jsIncludes action.hash
        "gov_action1k2jertppnnndejjcglszfqq4yzw8evzrd2nt66rr6rqlz54xp0zsq05ecsn" = true) :
    isDrepNotApplicable action = true ∧ isSpoNotApplicable action = true := by
  have hmatch : (action.hash ==
      "gov_action1k2jertppnnndejjcglszfqq4yzw8evzrd2nt66rr6rqlz54xp0zsq05ecsn" ||
      jsIncludes action.hash
        "gov_action1k2jertppnnndejjcglszfqq4yzw8evzrd2nt66rr6rqlz54xp0zsq05ecsn") =
      true := by
    rcases h with h | h
    · simp [h]
    · simp [h]
  have hd : LEGACY_NON_APPLICABLE_DREP_ACTIONS.any
      (fun actionId => action.hash == actionId ||
        jsIncludes action.hash actionId) = true :=
    List.any_eq_true.mpr
      ⟨_, by simp [LEGACY_NON_APPLICABLE_DREP_ACTIONS], hmatch⟩
  have hs : LEGACY_NON_APPLICABLE_SPO_ACTIONS.any
      (fun actionId => action.hash == actionId ||
        jsIncludes action.hash actionId) = true :=
    List.any_eq_true.mpr
      ⟨_, by simp [LEGACY_NON_APPLICABLE_SPO_ACTIONS], hmatch⟩
  exact ⟨by simp [isDrepNotApplicable, hd], by simp [isSpoNotApplicable, hs]⟩

/-- Witness for C4: a concrete action carrying the legacy hash and a
type for which SPO would otherwise be applicable. -/
theorem legacy_hash_overrides_witness :
    isDrepNotApplicable
      { hash := "gov_action1k2jertppnnndejjcglszfqq4yzw8evzrd2nt66rr6rqlz54xp0zsq05ecsn",
        type := "Info Action" } = true ∧
    isSpoNotApplicable
      { hash := "gov_action1k2jertppnnndejjcglszfqq4yzw8evzrd2nt66rr6rqlz54xp0zsq05ecsn",
        type := "Info Action" } = true :=
  legacy_hash_overrides
    { hash := "gov_action1k2jertppnnndejjcglszfqq4yzw8evzrd2nt66rr6rqlz54xp0zsq05ecsn",
      type := "Info Action" } (Or.inl rfl)

/-- C5: off the legacy lists, CC is not applicable exactly for the type
labels "No Confidence" and "Update Committee", SPO exactly for
"New Constitution", "Protocol Parameter Change" and
"Treasury Withdrawals", and DRep is always applicable. -/
theorem type_based_not_applicable (action : GovernanceActionDetail)
    (h : isLegacyAction action.hash = false) :
    (isCcNotApplicable action = true ↔
      action.type ∈ CC_NOT_APPLICABLE_TYPES) ∧
    (isSpoNotApplicable action = true ↔
      action.type ∈ SPO_NOT_APPLICABLE_TYPES) ∧
    isDrepNotApplicable action = false := by
  have h0 := h
  unfold isLegacyAction at h0
  have hall := List.any_eq_false.mp h0
  have hdrep : LEGACY_NON_APPLICABLE_DREP_ACTIONS.any
      (fun actionId => action.hash == actionId ||
        jsIncludes action.hash actionId) = false :=
    List.any_eq_false.mpr (fun id hid =>
      hall id (List.mem_append_left _ (List.mem_append_left _ hid)))
  have hspo : LEGACY_NON_APPLICABLE_SPO_ACTIONS.any
      (fun actionId => action.hash == actionId ||
        jsIncludes action.hash actionId) = false :=
    List.any_eq_false.mpr (fun id hid =>
      hall id (List.mem_append_left _ (List.mem_append_right _ hid)))
  refine ⟨?_, ?_, ?_⟩
  · simp [isCcNotApplicable, LEGACY_NON_APPLICABLE_CC_ACTIONS, h,
      List.contains]
  · simp [isSpoNotApplicable, hspo, h, List.contains]
  · simp [isDrepNotApplicable, hdrep]

/-- Witness for C5: a concrete non-legacy action of type label
"No Confidence" (CC not applicable, DRep applicable). -/
theorem type_based_not_applicable_witness :
    isCcNotApplicable { hash := "h1", type := "No Confidence" } = true ∧
    isDrepNotApplicable { hash := "h1", type := "No Confidence" } = false := by
  have h := type_based_not_applicable
    { hash := "h1", type := "No Confidence" } (by decide)
  exact ⟨h.1.mpr (by decide), h.2.2⟩

/-- A raw action with every optional field absent. -/
def emptyRawAction : RawGovernanceAction := {}

/-- C2 counterexample: on a raw action with no SPO and no CC tally the
normalizer leaves the SPO/CC flat percentage and count fields absent —
they are not defaulted to `0` as the claim states. -/
theorem transform_flat_defaults_counterexample :
    (transformGovernanceAction emptyRawAction).spoYesPercent ≠ some 0 ∧
    (transformGovernanceAction emptyRawAction).spoYesPercent = none ∧
    (transformGovernanceAction emptyRawAction).spoNoPercent = none ∧
    (transformGovernanceAction emptyRawAction).spoAbstainPercent = none ∧
    (transformGovernanceAction emptyRawAction).ccYesPercent = none ∧
    (transformGovernanceAction emptyRawAction).ccYesCount = none ∧
    (transformGovernanceAction emptyRawAction).ccNoCount = none ∧
    (transformGovernanceAction emptyRawAction).ccAbstainCount = none := by
  refine ⟨?_, rfl, rfl, rfl, rfl, rfl, rfl, rfl⟩
  intro h
  exact Option.noConfusion h

/-- C2 amended: the normalizer defaults `title` to "Untitled Proposal"
and `constitutionality` to "Unspecified" when empty; the DRep
percentages, the three vote totals and the two epochs are always
present, defaulting to `0` when the raw field is absent; the SPO and CC
flat percentage/count fields however are passed through unchanged and
stay absent when the raw role tally (or field) is absent. -/
theorem transformGovernanceAction_spec (action : RawGovernanceAction) :
    (action.title = "" →
      (transformGovernanceAction action).title = "Untitled Proposal") ∧
    (action.title ≠ "" →
      (transformGovernanceAction action).title = action.title) ∧
    (action.constitutionality = "" →
      (transformGovernanceAction action).constitutionality = "Unspecified") ∧
    (action.constitutionality ≠ "" →
      (transformGovernanceAction action).constitutionality =
        action.constitutionality) ∧
    (action.drep = none →
      (transformGovernanceAction action).drepYesPercent = 0 ∧
      (transformGovernanceAction action).drepNoPercent = 0 ∧
      (transformGovernanceAction action).drepAbstainPercent = 0) ∧
    (∀ d, action.drep = some d →
      (transformGovernanceAction action).drepYesPercent =
        d.yesPercent.getD 0 ∧
      (transformGovernanceAction action).drepNoPercent = d.noPercent.getD 0 ∧
      (transformGovernanceAction action).drepAbstainPercent =
        d.abstainPercent.getD 0) ∧
    ((transformGovernanceAction action).totalYes = action.totalYes.getD 0 ∧
      (transformGovernanceAction action).totalNo = action.totalNo.getD 0 ∧
      (transformGovernanceAction action).totalAbstain =
        action.totalAbstain.getD 0) ∧
    ((transformGovernanceAction action).submissionEpoch =
        action.submissionEpoch.getD 0 ∧
      (transformGovernanceAction action).expiryEpoch =
        action.expiryEpoch.getD 0) ∧
    ((transformGovernanceAction action).spoYesPercent =
        action.spo.bind (·.yesPercent) ∧
      (transformGovernanceAction action).spoNoPercent =
        action.spo.bind (·.noPercent) ∧
      (transformGovernanceAction action).spoAbstainPercent =
        action.spo.bind (·.abstainPercent)) ∧
    ((transformGovernanceAction action).ccYesPercent =
        action.cc.bind (·.yesPercent) ∧
      (transformGovernanceAction action).ccYesCount =
        action.cc.bind (·.yesCount) ∧
      (transformGovernanceAction action).ccNoCount =
        action.cc.bind (·.noCount) ∧
      (transformGovernanceAction action).ccAbstainCount =
        action.cc.bind (·.abstainCount)) := by
  refine ⟨?_, ?_, ?_, ?_, ?_, ?_, ?_, ?_, ?_, ?_⟩
  · intro h
    simp [transformGovernanceAction, h]
  · intro h
    simp [transformGovernanceAction, h]
  · intro h
    simp [transformGovernanceAction, h]
  · intro h
    simp [transformGovernanceAction, h]
  · intro h
    simp [transformGovernanceAction, h]
  · intro d h
    simp [transformGovernanceAction, h]
  · exact ⟨rfl, rfl, rfl⟩
  · exact ⟨rfl, rfl⟩
  · exact ⟨rfl, rfl, rfl⟩
  · exact ⟨rfl, rfl, rfl, rfl⟩

/-- Witness for C2 at a concrete raw action: empty title defaulted, a
present DRep tally read through, totals defaulted. -/
theorem transformGovernanceAction_witness :
    (transformGovernanceAction
      { title := "", drep := some { yesPercent := some 12 } }).title =
      "Untitled Proposal" ∧
    (transformGovernanceAction
      { title := "", drep := some { yesPercent := some 12 } }).drepYesPercent =
      12 := by
  have h := transformGovernanceAction_spec
    { title := "", drep := some { yesPercent := some 12 } }
  exact ⟨h.1 rfl, ((h.2.2.2.2.2.1 { yesPercent := some 12 } rfl).1).trans rfl⟩

instance : IsTotal IndexedVote voteSortLe := by
  constructor
  intro a b
  unfold voteSortLe
  cases ha : a.date <;> cases hb : b.date <;> simp_all <;> omega

instance : IsTrans IndexedVote voteSortLe := by
  constructor
  intro a b c hab hbc
  unfold voteSortLe at hab hbc ⊢
  cases ha : a.date <;> cases hb : b.date <;> cases hc : c.date <;>
    simp_all <;> omega

/-- A timestamped vote used in the C1 counterexample. -/
def c1Dated : VoteRecord := { vote := "Yes", votedAt := some 5 }

/-- An untimestamped vote used in the C1 counterexample. -/
def c1Undated : VoteRecord := { vote := "No" }

/-- C1 counterexample: on the two-vote list `[dated, undated]` the
timeline sort places the timestamped record first, so the claim that
every record without a timestamp is placed before all timestamped
records is false (the comparator returns `-1` when only `a` has a
date, putting dated records first). -/
theorem timeline_undated_first_counterexample :
    ¬ List.Pairwise
        (fun a b : IndexedVote => ¬(a.date.isSome = true ∧ b.date = none))
        (timelineSortedVotes [c1Dated, c1Undated]) := by
  decide

/-- C1 amended: the timeline sort is a permutation of the indexed
role-filtered votes, sorted by the comparator relation — ascending by
parsed timestamp among dated records, every record *without* a
timestamp placed after all timestamped records, and undated records
keeping their original relative order (fallback by original index). -/
theorem timelineSortedVotes_spec (votes : List VoteRecord) :
    (timelineSortedVotes votes).Perm (indexVotes votes) ∧
    List.Pairwise voteSortLe (timelineSortedVotes votes) ∧
    (∀ a b : IndexedVote, [a, b].Sublist (timelineSortedVotes votes) →
      a.date = none → b.date = none) ∧
    (∀ a b : IndexedVote, [a, b].Sublist (timelineSortedVotes votes) →
      a.date = none → b.date = none →
      a.fallbackIndex ≤ b.fallbackIndex) := by
  have hs : List.Pairwise voteSortLe (timelineSortedVotes votes) :=
    List.sorted_insertionSort _ _
  refine ⟨List.perm_insertionSort _ _, hs, ?_, ?_⟩
  · intro a b hsub ha
    have hab := List.pairwise_pair.mp (List.Pairwise.sublist hsub hs)
    cases hb : b.date with
    | none => rfl
    | some tb =>
      exfalso
      unfold voteSortLe at hab
      simp [ha, hb] at hab
  · intro a b hsub ha hb
    have hab := List.pairwise_pair.mp (List.Pairwise.sublist hsub hs)
    unfold voteSortLe at hab
    simpa [ha, hb] using hab

/-! ### Timeline totals: helper lemmas for C7 -/

/-- Componentwise order on timeline points ("the six totals are all
non-decreasing"). -/
def pointLe (p q : TimelinePoint) : Prop :=
  p.yesCount ≤ q.yesCount ∧ p.noCount ≤ q.noCount ∧
  p.abstainCount ≤ q.abstainCount ∧ p.yesPower ≤ q.yesPower ∧
  p.noPower ≤ q.noPower ∧ p.abstainPower ≤ q.abstainPower

/-- The totals of a whole vote collection, as the claim states them:
counts of exact `"Yes"`/`"No"` votes (anything else is abstain) and the
corresponding power sums (power = `votingPowerAda` defaulting to 0). -/
def tallyTotals (votes : List VoteRecord) : TimelinePoint :=
  { yesCount := votes.countP (fun v => v.vote == "Yes")
    noCount := votes.countP (fun v => v.vote == "No")
    abstainCount :=
      votes.countP (fun v => !(v.vote == "Yes") && !(v.vote == "No"))
    yesPower :=
      (votes.map (fun v => if v.vote = "Yes" then votePower v else 0)).sum
    noPower :=
      (votes.map (fun v => if v.vote = "No" then votePower v else 0)).sum
    abstainPower :=
      (votes.map (fun v =>
        if v.vote = "Yes" ∨ v.vote = "No" then 0 else votePower v)).sum }

/-- Componentwise sum of two timeline points. -/
def pointAdd (p q : TimelinePoint) : TimelinePoint :=
  { yesCount := p.yesCount + q.yesCount
    noCount := p.noCount + q.noCount
    abstainCount := p.abstainCount + q.abstainCount
    yesPower := p.yesPower + q.yesPower
    noPower := p.noPower + q.noPower
    abstainPower := p.abstainPower + q.abstainPower }

theorem pointAdd_zero_left (q : TimelinePoint) : pointAdd {} q = q := by
  cases q
  simp [pointAdd]

theorem foldl_stepTotals :
    ∀ (l : List VoteRecord) (t : TimelinePoint),
      l.foldl stepTotals t = pointAdd t (tallyTotals l)
  | [], t => by
    cases t
    simp [tallyTotals, pointAdd]
  | v :: l, t => by
    rw [List.foldl_cons, foldl_stepTotals l (stepTotals t v)]
    have hyn : ("Yes" : String) ≠ "No" := by decide
    have hny : ("No" : String) ≠ "Yes" := by decide
    by_cases h1 : v.vote = "Yes"
    · simp [stepTotals, pointAdd, tallyTotals, h1, hyn, List.countP_cons,
        TimelinePoint.mk.injEq]
      repeat' apply And.intro
      all_goals first | omega | ring
    · by_cases h2 : v.vote = "No"
      · simp [stepTotals, pointAdd, tallyTotals, h1, h2, hny,
          List.countP_cons, TimelinePoint.mk.injEq]
        repeat' apply And.intro
        all_goals first | omega | ring
      · simp [stepTotals, pointAdd, tallyTotals, h1, h2, List.countP_cons,
          TimelinePoint.mk.injEq]
        repeat' apply And.intro
        all_goals first | omega | ring

theorem runningTotals_length (l : List VoteRecord) :
    ∀ t, (runningTotals t l).length = l.length := by
  induction l with
  | nil => intro t; rfl
  | cons v vs ih => intro t; simp [runningTotals, ih]

theorem runningTotals_getElem :
    ∀ (l : List VoteRecord) (t : TimelinePoint) (k : Nat), k < l.length →
      (runningTotals t l)[k]? = some ((l.take (k + 1)).foldl stepTotals t)
  | [], t, k, hk => by simp at hk
  | v :: vs, t, 0, hk => by simp [runningTotals]
  | v :: vs, t, k + 1, hk => by
    have hk' : k < vs.length := by simpa using hk
    simpa [runningTotals, List.take_succ_cons] using
      runningTotals_getElem vs (stepTotals t v) k hk'

theorem runningTotals_getLast :
    ∀ (l : List VoteRecord) (t : TimelinePoint), l ≠ [] →
      (runningTotals t l).getLast? = some (l.foldl stepTotals t)
  | [], _, h => absurd rfl h
  | [v], t, _ => rfl
  | v :: w :: ws, t, _ => by
    have ih := runningTotals_getLast (w :: ws) (stepTotals t v)
      (List.cons_ne_nil _ _)
    simpa [runningTotals, List.getLast?_cons_cons] using ih

theorem pointLe_trans {p q r : TimelinePoint} (h1 : pointLe p q)
    (h2 : pointLe q r) : pointLe p r := by
  obtain ⟨a1, a2, a3, a4, a5, a6⟩ := h1
  obtain ⟨b1, b2, b3, b4, b5, b6⟩ := h2
  exact ⟨a1.trans b1, a2.trans b2, a3.trans b3, a4.trans b4, a5.trans b5,
    a6.trans b6⟩

theorem pointLe_step (t : TimelinePoint) (v : VoteRecord)
    (h : 0 ≤ votePower v) : pointLe t (stepTotals t v) := by
  unfold pointLe stepTotals
  by_cases h1 : v.vote = "Yes"
  · rw [if_pos h1]
    exact ⟨Nat.le_succ _, le_refl _, le_refl _, le_add_of_nonneg_right h,
      le_refl _, le_refl _⟩
  · by_cases h2 : v.vote = "No"
    · rw [if_neg h1, if_pos h2]
      exact ⟨le_refl _, Nat.le_succ _, le_refl _, le_refl _,
        le_add_of_nonneg_right h, le_refl _⟩
    · rw [if_neg h1, if_neg h2]
      exact ⟨le_refl _, le_refl _, Nat.le_succ _, le_refl _, le_refl _,
        le_add_of_nonneg_right h⟩

theorem pointLe_runningTotals (l : List VoteRecord) :
    ∀ t, (∀ v ∈ l, 0 ≤ votePower v) →
      ∀ p ∈ runningTotals t l, pointLe t p := by
  induction l with
  | nil => intro t _ p hp; simp [runningTotals] at hp
  | cons v vs ih =>
    intro t hl p hp
    have hstep : pointLe t (stepTotals t v) :=
      pointLe_step t v (hl v (List.mem_cons_self _ _))
    rcases List.mem_cons.mp hp with rfl | hp'
    · exact hstep
    · exact pointLe_trans hstep
        (ih (stepTotals t v) (fun w hw => hl w (List.mem_cons_of_mem _ hw))
          p hp')

theorem runningTotals_pairwise (l : List VoteRecord) :
    ∀ t, (∀ v ∈ l, 0 ≤ votePower v) →
      List.Pairwise pointLe (runningTotals t l) := by
  induction l with
  | nil => intro t _; exact List.Pairwise.nil
  | cons v vs ih =>
    intro t hl
    refine List.Pairwise.cons ?_
      (ih (stepTotals t v) (fun w hw => hl w (List.mem_cons_of_mem _ hw)))
    intro p hp
    exact pointLe_runningTotals vs (stepTotals t v)
      (fun w hw => hl w (List.mem_cons_of_mem _ hw)) p hp

theorem tallyTotals_perm {l₁ l₂ : List VoteRecord} (h : l₁.Perm l₂) :
    tallyTotals l₁ = tallyTotals l₂ := by
  unfold tallyTotals
  simp only [TimelinePoint.mk.injEq]
  exact ⟨h.countP_eq _, h.countP_eq _, h.countP_eq _, (h.map _).sum_eq,
    (h.map _).sum_eq, (h.map _).sum_eq⟩

theorem map_voteRec_indexVotes (votes : List VoteRecord) :
    (indexVotes votes).map (·.voteRec) = votes := by
  unfold indexVotes
  rw [List.map_map]
  exact List.enum_map_snd votes

/-- C7: every timeline point carries the six cumulative totals of the
sorted prefix up to it; each of the six fields is monotonically
non-decreasing along the sequence (given the data-model fact that
voting powers are non-negative); the final point equals the totals over
the entire (role-filtered) vote collection. -/
theorem voteTimelineData_spec (roleFilter : Option String)
    (allVotes : List VoteRecord)
    (hpow : ∀ v ∈ roleFilteredVotes roleFilter allVotes, 0 ≤ votePower v) :
    (∀ k : Nat, k < (voteTimelineData roleFilter allVotes).length →
      (voteTimelineData roleFilter allVotes)[k]? =
        some (tallyTotals
          (((timelineSortedVotes
              (roleFilteredVotes roleFilter allVotes)).map
            (·.voteRec)).take (k + 1)))) ∧
    List.Pairwise pointLe (voteTimelineData roleFilter allVotes) ∧
    (roleFilteredVotes roleFilter allVotes ≠ [] →
      (voteTimelineData roleFilter allVotes).getLast? =
        some (tallyTotals (roleFilteredVotes roleFilter allVotes))) := by
  by_cases hne : (roleFilteredVotes roleFilter allVotes).isEmpty
  · have hdata : voteTimelineData roleFilter allVotes = [] := by
      simp [voteTimelineData, hne]
    refine ⟨?_, ?_, ?_⟩
    · intro k hk
      rw [hdata] at hk
      simp at hk
    · rw [hdata]
      exact List.Pairwise.nil
    · intro h
      exact absurd (List.isEmpty_iff.mp hne) h
  · have hdata : voteTimelineData roleFilter allVotes =
        runningTotals {}
          ((timelineSortedVotes
            (roleFilteredVotes roleFilter allVotes)).map (·.voteRec)) := by
      simp [voteTimelineData, hne]
    have hperm : ((timelineSortedVotes
        (roleFilteredVotes roleFilter allVotes)).map (·.voteRec)).Perm
          (roleFilteredVotes roleFilter allVotes) := by
      have h1 := (List.perm_insertionSort voteSortLe
        (indexVotes (roleFilteredVotes roleFilter allVotes))).map
        (fun iv : IndexedVote => iv.voteRec)
      rwa [map_voteRec_indexVotes] at h1
    refine ⟨?_, ?_, ?_⟩
    · intro k hk
      rw [hdata] at hk ⊢
      rw [runningTotals_length] at hk
      rw [runningTotals_getElem _ _ k hk, foldl_stepTotals,
        pointAdd_zero_left]
    · rw [hdata]
      exact runningTotals_pairwise _ _
        (fun v hv => hpow v (hperm.mem_iff.mp hv))
    · intro hne'
      have hmapne : ((timelineSortedVotes
          (roleFilteredVotes roleFilter allVotes)).map (·.voteRec)) ≠ [] := by
        intro h
        exact hne' (List.Perm.nil_eq (h ▸ hperm)).symm
      rw [hdata, runningTotals_getLast _ _ hmapne, foldl_stepTotals,
        pointAdd_zero_left, tallyTotals_perm hperm]

/-- The three-vote collection of the spec's timeline example. -/
def c7Votes : List VoteRecord :=
  [{ vote := "Yes", votingPowerAda := some 10, votedAt := some 3 },
   { vote := "No", votingPowerAda := some 5, votedAt := some 1 },
   { vote := "Abstain", votingPowerAda := some 2 }]

/-- Witness for C7 on the spec's three-vote example: the series is
monotone and the final point carries `yesPower = 10`, `noPower = 5`,
`abstainPower = 2`. -/
theorem voteTimelineData_witness :
    List.Pairwise pointLe (voteTimelineData none c7Votes) ∧
    (voteTimelineData none c7Votes).getLast? =
      some { yesCount := 1, noCount := 1, abstainCount := 1,
             yesPower := 10, noPower := 5, abstainPower := 2 } := by
  have h := voteTimelineData_spec none c7Votes (by
    intro v hv
    simp [roleFilteredVotes, c7Votes] at hv
    rcases hv with rfl | rfl | rfl <;> norm_num [votePower])
  refine ⟨h.2.1, ?_⟩
  rw [h.2.2 (by simp [roleFilteredVotes, c7Votes])]
  simp [roleFilteredVotes, c7Votes, tallyTotals, votePower]

/-! ### Sorting engine: C6 -/

instance : IsTotal TableAction actionLe := by
  constructor
  intro a b
  rcases eq_or_ne (a.submissionEpoch.getD 0) (b.submissionEpoch.getD 0)
    with h | h
  · simp only [actionLe, actionCompare, h, if_pos rfl, if_true]
    omega
  · have h' : b.submissionEpoch.getD 0 ≠ a.submissionEpoch.getD 0 :=
      fun e => h e.symm
    simp only [actionLe, actionCompare, h, h', if_neg, if_false]
    omega

instance : IsTrans TableAction actionLe := by
  constructor
  intro a b c hab hbc
  simp only [actionLe, actionCompare] at hab hbc ⊢
  split_ifs at hab hbc ⊢ <;> omega

/-- C6: `sortedActions` returns a permutation of the input, sorted by
the comparator relation (submission epoch descending, ties by expiry
epooch descending); the comparator is total; comparator value `0` means
exactly "equal on both keys"; and actions equal on both keys keep
their relative input order (stability of the sort). -/
theorem sortedActions_spec (actions : List TableAction) :
    (sortedActions actions).Perm actions ∧
    List.Pairwise actionLe (sortedActions actions) ∧
    (∀ a b : TableAction, actionLe a b ∨ actionLe b a) ∧
    (∀ a b : TableAction, actionCompare a b = 0 ↔
      (a.submissionEpoch.getD 0 = b.submissionEpoch.getD 0 ∧
        a.expiryEpoch.getD 0 = b.expiryEpoch.getD 0)) ∧
    (∀ a b : TableAction, actionCompare a b = 0 → [a, b].Sublist actions →
      [a, b].Sublist (sortedActions actions)) := by
  refine ⟨List.perm_insertionSort _ _, List.sorted_insertionSort _ _,
    fun a b => IsTotal.total a b, ?_, ?_⟩
  · intro a b
    simp only [actionCompare]
    split_ifs with h <;> constructor <;> intro h2 <;> omega
  · intro a b h hsub
    exact List.pair_sublist_insertionSort (le_of_eq h) hsub

/-- First of the two equal-key actions of the C6 witness. -/
def c6A : TableAction :=
  { title := "x", submissionEpoch := some 4, expiryEpoch := some 9 }

/-- Second of the two equal-key actions of the C6 witness. -/
def c6B : TableAction :=
  { title := "y", submissionEpoch := some 4, expiryEpoch := some 9 }

/-- Witness for C6: two actions equal on both sort keys keep their
input order. -/
theorem sortedActions_witness :
    [c6A, c6B].Sublist (sortedActions [c6A, c6B]) :=
  (sortedActions_spec [c6A, c6B]).2.2.2.2 c6A c6B (by decide)
    (List.Sublist.refl _)

/-! ### Filter engine: C3 -/

theorem applySearch_empty (l : List TableAction) : applySearch "" l = l := rfl

theorem countP_filterMap_find_zero (sorted : List TableAction)
    (ts : List String) (t : String) (ht : t ∉ ts) :
    ((ts.filterMap
        (fun t' => sorted.find? (fun a => a.type = t'))).countP
      (fun a => a.type == t)) = 0 := by
  rw [List.countP_eq_zero]
  intro a ha
  rw [List.mem_filterMap] at ha
  obtain ⟨t', ht', hfind⟩ := ha
  have hat : a.type = t' := by simpa using List.find?_some hfind
  simp only [beq_iff_eq, hat]
  intro h
  exact ht (h ▸ ht')

theorem countP_filterMap_find (sorted : List TableAction) :
    ∀ ts : List String, ts.Nodup → ∀ t, t ∈ ts →
      ((ts.filterMap
          (fun t' => sorted.find? (fun a => a.type = t'))).countP
        (fun a => a.type == t)) =
      if (sorted.find? (fun a => a.type = t)).isSome then 1 else 0 := by
  intro ts
  induction ts with
  | nil => intro _ t ht; simp at ht
  | cons t0 ts ih =>
    intro hnd t ht
    obtain ⟨hn0, hnd'⟩ := List.nodup_cons.mp hnd
    rcases List.mem_cons.mp ht with rfl | hmem
    · rw [List.filterMap_cons]
      cases hfind : sorted.find? (fun a => a.type = t) with
      | none => simp [countP_filterMap_find_zero sorted ts t hn0]
      | some a =>
        have hat : a.type = t := by simpa using List.find?_some hfind
        simp [List.countP_cons, hat,
          countP_filterMap_find_zero sorted ts t hn0]
    · have hne : t0 ≠ t := fun e => hn0 (e ▸ hmem)
      rw [List.filterMap_cons]
      cases hfind0 : sorted.find? (fun a => a.type = t0) with
      | none => simpa using ih hnd' t hmem
      | some a =>
        have hat : a.type = t0 := by simpa using List.find?_some hfind0
        have hbeq : (a.type == t) = false := by simp [hat, hne]
        simp [List.countP_cons, hbeq, ih hnd' t hmem]

/-- C3 amended: with all seven proposal types and all statuses selected,
an empty search query and at least one showcase-type action present,
the output is the single representative of each showcase type present
(first match in prior sort order, in fixed showcase order) followed by
exactly the actions whose type is NOT a showcase type, in the prior
epoch-descending order; each showcase type present contributes exactly
one entry (so further actions of an already-represented showcase type
are dropped), and every non-showcase action is kept. -/
theorem filteredActions_all_selected (actions : List TableAction)
    (hstatus : ∀ a ∈ actions, STATUS_OPTIONS.contains a.status = true)
    (hshow : ∃ a ∈ actions, SHOWCASE_ORDER.contains a.type = true) :
    filteredActions actions PROPOSAL_TYPES STATUS_OPTIONS "" =
      (SHOWCASE_ORDER.filterMap
        (fun t => (sortedActions actions).find? (fun a => a.type = t))) ++
      (sortedActions actions).filter
        (fun a => !SHOWCASE_ORDER.contains a.type) ∧
    (∀ t ∈ SHOWCASE_ORDER,
      ((filteredActions actions PROPOSAL_TYPES STATUS_OPTIONS "").countP
        (fun a => a.type == t)) =
      if actions.any (fun a => a.type == t) then 1 else 0) ∧
    (∀ a ∈ actions, SHOWCASE_ORDER.contains a.type = false →
      a ∈ filteredActions actions PROPOSAL_TYPES STATUS_OPTIONS "") ∧
    List.Pairwise actionLe
      ((sortedActions actions).filter
        (fun a => !SHOWCASE_ORDER.contains a.type)) := by
  have hperm := List.perm_insertionSort actionLe actions
  obtain ⟨a0, ha0, ha0show⟩ := hshow
  have ha0sorted : a0 ∈ sortedActions actions := hperm.mem_iff.mpr ha0
  have hnonempty : (sortedActions actions).isEmpty = false := by
    cases h : sortedActions actions with
    | nil => rw [h] at ha0sorted; simp at ha0sorted
    | cons x xs => rfl
  have hstatusFiltered : (sortedActions actions).filter
      (fun a => STATUS_OPTIONS.contains a.status) = sortedActions actions :=
    List.filter_eq_self.mpr (fun a ha => hstatus a (hperm.mem_iff.mp ha))
  have hshowfilter : SHOWCASE_ORDER.filter
      (fun t => PROPOSAL_TYPES.contains t) = SHOWCASE_ORDER := by decide
  have hmem0 : a0.type ∈ SHOWCASE_ORDER := by
    simpa [List.contains] using ha0show
  have hfind0 : ((sortedActions actions).find?
      (fun a => a.type = a0.type)).isSome :=
    List.find?_isSome.mpr ⟨a0, ha0sorted, by simp⟩
  have hdpne : (SHOWCASE_ORDER.filterMap
      (fun t => (sortedActions actions).find? (fun a => a.type = t))) ≠
        [] := by
    intro hnil
    have := List.filterMap_eq_nil_iff.mp hnil a0.type hmem0
    rw [this] at hfind0
    simp at hfind0
  have hdpE : (SHOWCASE_ORDER.filterMap
      (fun t => (sortedActions actions).find? (fun a => a.type = t))).isEmpty
        = false := by
    cases h : SHOWCASE_ORDER.filterMap
        (fun t => (sortedActions actions).find? (fun a => a.type = t)) with
    | nil => exact absurd h hdpne
    | cons x xs => rfl
  have hlen : (PROPOSAL_TYPES.dedup.length = PROPOSAL_TYPES.length) = True :=
    eq_true (by decide)
  have hmain : filteredActions actions PROPOSAL_TYPES STATUS_OPTIONS "" =
      (SHOWCASE_ORDER.filterMap
        (fun t => (sortedActions actions).find? (fun a => a.type = t))) ++
      (sortedActions actions).filter
        (fun a => !SHOWCASE_ORDER.contains a.type) := by
    simp only [filteredActions, hnonempty, Bool.false_eq_true, if_false,
      hstatusFiltered, hshowfilter, List.filterMap_map, Function.comp_def,
      id, hdpE, hlen, if_true, applySearch_empty]
  refine ⟨hmain, ?_, ?_, ?_⟩
  · intro t ht
    rw [hmain, List.countP_append]
    have hext : (((sortedActions actions).filter
        (fun a => !SHOWCASE_ORDER.contains a.type)).countP
          (fun a => a.type == t)) = 0 := by
      rw [List.countP_eq_zero]
      intro a ha
      have hmemf := List.mem_filter.mp ha
      simp only [beq_iff_eq]
      intro heq
      have : SHOWCASE_ORDER.contains a.type = false := by
        simpa using hmemf.2
      rw [heq] at this
      have ht' : SHOWCASE_ORDER.contains t = true := by
        simpa [List.contains] using ht
      rw [ht'] at this
      exact Bool.noConfusion this
    rw [hext, Nat.add_zero,
      countP_filterMap_find (sortedActions actions) SHOWCASE_ORDER
        (by decide) t ht]
    have hiff : ((sortedActions actions).find?
        (fun a => a.type = t)).isSome = true ↔
        actions.any (fun a => a.type == t) = true := by
      rw [List.find?_isSome, List.any_eq_true]
      constructor
      · rintro ⟨x, hx, hxt⟩
        exact ⟨x, hperm.mem_iff.mp hx, by simpa using hxt⟩
      · rintro ⟨x, hx, hxt⟩
        exact ⟨x, hperm.mem_iff.mpr hx, by simpa using hxt⟩
    exact if_congr hiff rfl rfl
  · intro a ha hns
    rw [hmain]
    refine List.mem_append_right _
      (List.mem_filter.mpr ⟨hperm.mem_iff.mpr ha, ?_⟩)
    simpa using hns
  · exact List.Sorted.filter _ (List.sorted_insertionSort _ _)

/-- A showcase action at epoch 5 (C3 counterexample). -/
def c3A5 : TableAction :=
  { type := "NoConfidence", status := "Active", submissionEpoch := some 5 }

/-- A showcase action of another type at epoch 10 (C3 counterexample). -/
def c3B10 : TableAction :=
  { type := "UpdateCommittee", status := "Active",
    submissionEpoch := some 10 }

/-- A second action of the first showcase type at epoch 1 (C3
counterexample). -/
def c3A1 : TableAction :=
  { type := "NoConfidence", status := "Active", submissionEpoch := some 1 }

/-- C3 counterexample: with all types and statuses selected and an
empty query, the input `[A@5, B@10, A@1]` (all of showcase types) loses
the second NoConfidence action — the engine keeps only one
representative per showcase type and its "extras" list contains only
non-showcase types, so the claim that no action of the input is
dropped is false. -/
theorem filteredActions_drop_counterexample :
    c3A1 ∈ ([c3A5, c3B10, c3A1] : List TableAction) ∧
    c3A1 ∉ filteredActions [c3A5, c3B10, c3A1] PROPOSAL_TYPES
      STATUS_OPTIONS "" := by
  decide

/-- Witness for C3 on the spec's example: representatives in showcase
order, remaining showcase-type action dropped, no duplicates. -/
theorem filteredActions_all_selected_witness :
    filteredActions [c3A5, c3B10, c3A1] PROPOSAL_TYPES STATUS_OPTIONS "" =
      [c3A5, c3B10] := by
  have h := filteredActions_all_selected [c3A5, c3B10, c3A1] (by decide)
    ⟨c3A5, by decide, by decide⟩
  rw [h.1]
  decide

/-! ### Hash parsing: C10 -/

theorem splitOnChar_not_mem (sep : Char) (l : List Char) (h : sep ∉ l) :
    splitOnChar sep l = [l] := by
  induction l with
  | nil => rfl
  | cons c cs ih =>
    have hc : ¬c = sep := fun e => h (e ▸ List.mem_cons_self c cs)
    have ih' := ih (fun hm => h (List.mem_cons_of_mem _ hm))
    simp [splitOnChar, hc, ih']

theorem splitOnChar_append (sep : Char) (t r : List Char) (ht : sep ∉ t) :
    splitOnChar sep (t ++ sep :: r) = t :: splitOnChar sep r := by
  induction t with
  | nil => simp [splitOnChar]
  | cons c cs ih =>
    have hc : ¬c = sep := fun e => ht (e ▸ List.mem_cons_self c cs)
    have ih' := ih (fun hm => ht (List.mem_cons_of_mem _ hm))
    simp [splitOnChar, hc, ih']

theorem tryHashFormat_not_contains (sep : Char) (hash : String)
    (h : hash.data.contains sep = false) :
    tryHashFormat sep hash = none := by
  unfold tryHashFormat
  rw [if_neg (by simpa using h)]

theorem tryHashFormat_eval (sep : Char) (t r : List Char)
    (ht : sep ∉ t) (hr : sep ∉ r) :
    tryHashFormat sep ⟨t ++ sep :: r⟩ =
      match jsParseInt r with
      | some n => if t ≠ [] then some (⟨t⟩, n) else none
      | none => none := by
  have hcont : (t ++ sep :: r).contains sep = true := by simp
  simp only [tryHashFormat,
    show (⟨t ++ sep :: r⟩ : String).data = t ++ sep :: r from rfl, hcont,
    if_true, splitOnChar_append sep t r ht, splitOnChar_not_mem sep r hr,
    List.getD]
  rfl

/-- C10: `parseProposalHash` returns `none` for the empty string, for
every hash containing neither `:` nor `#`, for separator-bearing hashes
with an empty `txHash` part, and for ones whose index part does not
parse; for `txHash:certIndex` (or, with no colon anywhere,
`txHash#certIndex`) with non-empty `txHash` and a parseable index it
returns the pair, the `:` split being tried before the `#` split (the
`:` clauses hold with `#` characters anywhere in either part). -/
theorem parseProposalHash_spec :
    parseProposalHash "" = none ∧
    (∀ h : String, h.data.contains ':' = false →
      h.data.contains '#' = false → parseProposalHash h = none) ∧
    (∀ (t r : List Char) (n : Int), t ≠ [] → ':' ∉ t → ':' ∉ r →
      jsParseInt r = some n →
      parseProposalHash ⟨t ++ ':' :: r⟩ = some (⟨t⟩, n)) ∧
    (∀ (t r : List Char) (n : Int), t ≠ [] → '#' ∉ t → '#' ∉ r →
      ':' ∉ t ++ '#' :: r → jsParseInt r = some n →
      parseProposalHash ⟨t ++ '#' :: r⟩ = some (⟨t⟩, n)) ∧
    (∀ r : List Char, ':' ∉ r → '#' ∉ (':' :: r) →
      parseProposalHash ⟨':' :: r⟩ = none) ∧
    (∀ t r : List Char, ':' ∉ t → ':' ∉ r → jsParseInt r = none →
      '#' ∉ t ++ ':' :: r → parseProposalHash ⟨t ++ ':' :: r⟩ = none) := by
  have hmk_ne : ∀ (c : Char) (l : List Char), (⟨c :: l⟩ : String) ≠ "" := by
    intro c l h
    have := congrArg String.data h
    simp at this
  have happ_ne : ∀ (t : List Char) (c : Char) (r : List Char),
      (⟨t ++ c :: r⟩ : String) ≠ "" := by
    intro t c r h
    have := congrArg String.data h
    simp at this
  refine ⟨rfl, ?_, ?_, ?_, ?_, ?_⟩
  · intro h h1 h2
    by_cases hE : h = ""
    · simp [parseProposalHash, hE]
    · simp [parseProposalHash, hE, tryHashFormat_not_contains ':' h h1,
        tryHashFormat_not_contains '#' h h2]
  · intro t r n ht htc hrc hparse
    rw [parseProposalHash, if_neg (happ_ne t ':' r),
      tryHashFormat_eval ':' t r htc hrc, hparse]
    simp [ht]
  · intro t r n ht hth hrh hcolon hparse
    have hnocolon : (⟨t ++ '#' :: r⟩ : String).data.contains ':' = false := by
      simpa using hcolon
    rw [parseProposalHash, if_neg (happ_ne t '#' r),
      tryHashFormat_not_contains ':' _ hnocolon,
      tryHashFormat_eval '#' t r hth hrh, hparse]
    simp [ht]
  · intro r hrc hrh
    have hnohash : (⟨':' :: r⟩ : String).data.contains '#' = false := by
      simpa using hrh
    rw [parseProposalHash, if_neg (hmk_ne ':' r),
      show (⟨':' :: r⟩ : String) = ⟨[] ++ ':' :: r⟩ from rfl,
      tryHashFormat_eval ':' [] r (by simp) hrc]
    cases jsParseInt r with
    | none => simpa using tryHashFormat_not_contains '#' _ hnohash
    | some n => simpa using tryHashFormat_not_contains '#' _ hnohash
  · intro t r htc hrc hparse hnh
    have hnohash : (⟨t ++ ':' :: r⟩ : String).data.contains '#' = false := by
      simpa using hnh
    rw [parseProposalHash, if_neg (happ_ne t ':' r),
      tryHashFormat_eval ':' t r htc hrc, hparse]
    simpa using tryHashFormat_not_contains '#' _ hnohash

/-- Witness for C10: both separator forms at concrete inputs, the plain
form rejected. -/
theorem parseProposalHash_witness :
    parseProposalHash "abc:2" = some ("abc", 2) ∧
    parseProposalHash "abc" = none ∧
    parseProposalHash "ab#7" = some ("ab", 7) := by
  refine ⟨?_, ?_, ?_⟩
  · exact parseProposalHash_spec.2.2.1 ['a', 'b', 'c'] ['2'] 2 (by decide)
      (by decide) (by decide) (by decide)
  · exact parseProposalHash_spec.2.1 "abc" (by decide) (by decide)
  · exact parseProposalHash_spec.2.2.2.1 ['a', 'b'] ['7'] 7 (by decide)
      (by decide) (by decide) (by decide) (by decide)

end CGov
